import Mathlib

/-!
Verification of the granola-mcp-server cache parsing and normalization
pipeline.  The Python source (`granola_mcp_server/parser.py`,
`tools/meetings.py`, `utils/date_parser.py`) is shallowly embedded below:
JSON-like values become the inductive `JVal`, Python exceptions become
`Except PyErr`, Python `dict`s become association lists with string keys
(JSON object keys are strings), and Python numbers (int/float) become `ℚ`.
-/

namespace Granola

/-- JSON-like values: the shape of the decoded Granola cache graph.
Python `None` is `null`; Python ints/floats are both `num` (over `ℚ`). -/
inductive JVal where
  | null : JVal
  | bool : Bool → JVal
  | num : ℚ → JVal
  | str : String → JVal
  | arr : List JVal → JVal
  | obj : List (String × JVal) → JVal
  deriving Repr

mutual

/-- Structural equality of `JVal` (models Python `==` on decoded JSON data;
Python's numeric `bool`/`int`/`float` cross-type equality is not exercised by
any theorem below). -/
def JVal.beq : JVal → JVal → Bool
  | .null, .null => true
  | .bool a, .bool b => a == b
  | .num a, .num b => a == b
  | .str a, .str b => a == b
  | .arr a, .arr b => JVal.beqList a b
  | .obj a, .obj b => JVal.beqFields a b
  | _, _ => false

def JVal.beqList : List JVal → List JVal → Bool
  | [], [] => true
  | a :: as, b :: bs => JVal.beq a b && JVal.beqList as bs
  | _, _ => false

def JVal.beqFields : List (String × JVal) → List (String × JVal) → Bool
  | [], [] => true
  | (ka, va) :: as, (kb, vb) :: bs => ka == kb && JVal.beq va vb && JVal.beqFields as bs
  | _, _ => false

end

mutual

def JVal.eq_of_beq : ∀ {a b : JVal}, JVal.beq a b = true → a = b
  | .null, .null, _ => rfl
  | .bool a, .bool b, h => by simp [JVal.beq] at h; simp [h]
  | .num a, .num b, h => by simp [JVal.beq] at h; simp [h]
  | .str a, .str b, h => by simp [JVal.beq] at h; simp [h]
  | .arr a, .arr b, h => by rw [JVal.eqList_of_beqList (a := a) (b := b) h]
  | .obj a, .obj b, h => by rw [JVal.eqFields_of_beqFields (a := a) (b := b) h]

def JVal.eqList_of_beqList : ∀ {a b : List JVal}, JVal.beqList a b = true → a = b
  | [], [], _ => rfl
  | x :: xs, y :: ys, h => by
      simp only [JVal.beqList, Bool.and_eq_true] at h
      rw [JVal.eq_of_beq h.1, JVal.eqList_of_beqList h.2]

def JVal.eqFields_of_beqFields :
    ∀ {a b : List (String × JVal)}, JVal.beqFields a b = true → a = b
  | [], [], _ => rfl
  | (kx, vx) :: xs, (ky, vy) :: ys, h => by
      simp only [JVal.beqFields, Bool.and_eq_true] at h
      obtain ⟨⟨hk, hv⟩, hs⟩ := h
      rw [JVal.eq_of_beq hv, JVal.eqFields_of_beqFields hs, beq_iff_eq.mp hk]

end

mutual

def JVal.beq_refl : ∀ (a : JVal), JVal.beq a a = true
  | .null => rfl
  | .bool a => by simp [JVal.beq]
  | .num a => by simp [JVal.beq]
  | .str a => by simp [JVal.beq]
  | .arr a => JVal.beqList_refl a
  | .obj a => JVal.beqFields_refl a

def JVal.beqList_refl : ∀ (a : List JVal), JVal.beqList a a = true
  | [] => rfl
  | x :: xs => by
      simp only [JVal.beqList, Bool.and_eq_true]
      exact ⟨JVal.beq_refl x, JVal.beqList_refl xs⟩

def JVal.beqFields_refl : ∀ (a : List (String × JVal)), JVal.beqFields a a = true
  | [] => rfl
  | (k, v) :: xs => by
      simp only [JVal.beqFields, Bool.and_eq_true]
      exact ⟨⟨by simp, JVal.beq_refl v⟩, JVal.beqFields_refl xs⟩

end

instance : DecidableEq JVal := fun a b =>
  if h : JVal.beq a b then .isTrue (JVal.eq_of_beq h)
  else .isFalse (fun he => h (he ▸ JVal.beq_refl a))

instance : BEq JVal := ⟨JVal.beq⟩

/-- Python truthiness on decoded-JSON values (`bool(x)`). -/
def JVal.truthy : JVal → Bool
  | .null => false
  | .bool b => b
  | .num q => q != 0
  | .str s => s != ""
  | .arr xs => !xs.isEmpty
  | .obj fs => !fs.isEmpty

/-- Python `a or b` on decoded-JSON values. -/
def pyOr (a b : JVal) : JVal := if a.truthy then a else b

def JVal.lookupKey : List (String × JVal) → String → Option JVal
  | [], _ => none
  | (k, v) :: rest, key => if k == key then some v else JVal.lookupKey rest key

/-- Python `d.get(k)` (`None` default); in the source it is only applied to
values already checked to be dicts. -/
def JVal.get (v : JVal) (k : String) : JVal :=
  match v with
  | .obj fs => (JVal.lookupKey fs k).getD .null
  | _ => .null

/-- Python `d.get(k, default)`. -/
def JVal.getD (v : JVal) (k : String) (d : JVal) : JVal :=
  match v with
  | .obj fs => (JVal.lookupKey fs k).getD d
  | _ => d

def JVal.isDict : JVal → Bool
  | .obj _ => true
  | _ => false

def JVal.isList : JVal → Bool
  | .arr _ => true
  | _ => false

def JVal.isStr : JVal → Bool
  | .str _ => true
  | _ => false

/-- Python hashability of decoded-JSON values: lists and dicts are unhashable
(`hash(x)` raises `TypeError`), everything else here is hashable. -/
def JVal.hashable : JVal → Bool
  | .arr _ => false
  | .obj _ => false
  | _ => true

/-- Rendering of an integer-or-rational number the way the theorems below
need it; Python's `repr` for non-integer floats is abstracted (only
integer-valued numbers are rendered by any theorem below). -/
def numRepr (q : ℚ) : String :=
  if q.den = 1 then toString q.num else toString q.num ++ "/" ++ toString q.den

mutual

/-- Python `repr()` on decoded-JSON values (quoting of strings containing
quotes is abstracted; no theorem below renders such a string). -/
def JVal.pyRepr : JVal → String
  | .null => "None"
  | .bool b => if b then "True" else "False"
  | .num q => numRepr q
  | .str s => "'" ++ s ++ "'"
  | .arr xs => "[" ++ JVal.pyReprList xs ++ "]"
  | .obj fs => "\x7b" ++ JVal.pyReprFields fs ++ "\x7d"

def JVal.pyReprList : List JVal → String
  | [] => ""
  | [x] => JVal.pyRepr x
  | x :: xs => JVal.pyRepr x ++ ", " ++ JVal.pyReprList xs

def JVal.pyReprFields : List (String × JVal) → String
  | [] => ""
  | [(k, v)] => "'" ++ k ++ "': " ++ JVal.pyRepr v
  | (k, v) :: xs => "'" ++ k ++ "': " ++ JVal.pyRepr v ++ ", " ++ JVal.pyReprFields xs

end

/-- Python `str()` on decoded-JSON values. -/
def JVal.pyStr : JVal → String
  | .str s => s
  | v => JVal.pyRepr v

/-- Python `str.lower()` restricted to ASCII (all data in the theorems below
is ASCII). -/
def strLower (s : String) : String := ⟨s.data.map Char.toLower⟩

def isPySpace (c : Char) : Bool :=
  c == ' ' || c == '\t' || c == '\n' || c == '\r' || c == '\x0b' || c == '\x0c'

/-- Python `str.strip()` (ASCII whitespace). -/
def pyStrip (s : String) : String :=
  ⟨((s.data.dropWhile isPySpace).reverse.dropWhile isPySpace).reverse⟩

def leadMatch : List Char → List Char → Bool
  | [], _ => true
  | _ :: _, [] => false
  | c :: cs, d :: ds => c == d && leadMatch cs ds

def hasSub (needle : List Char) : List Char → Bool
  | [] => needle.isEmpty
  | c :: cs => leadMatch needle (c :: cs) || hasSub needle cs

/-- Python `needle in hay` for strings (substring containment). -/
def strContains (hay needle : String) : Bool := hasSub needle.data hay.data

def lexLt : List Char → List Char → Bool
  | [], [] => false
  | [], _ :: _ => true
  | _ :: _, [] => false
  | c :: cs, d :: ds =>
      if c.toNat < d.toNat then true
      else if d.toNat < c.toNat then false
      else lexLt cs ds

/-- Python `a < b` for strings: lexicographic over code points. -/
def strLtB (a b : String) : Bool := lexLt a.data b.data

/-- Python `a > b` for strings. -/
def strGtB (a b : String) : Bool := strLtB b a

/-- Python exception kinds surfaced by the embedded code. -/
inductive PyErr where
  | typeError : PyErr
  | valueError : PyErr
  | granola : String → PyErr
  deriving DecidableEq, Repr

deriving instance DecidableEq for Except

/-- Left-pad the decimal rendering of `n` with zeros to width `w`. -/
def padNum (w : Nat) (n : Nat) : String :=
  let s := toString n
  ⟨List.replicate (w - s.length) '0' ++ s.data⟩

/-- Gregorian civil date from days since 1970-01-01 (Hinnant's algorithm);
valid for `z ≥ -719468`, which covers every timestamp the range checks below
let through. -/
def civilFromDays (z : Int) : Nat × Nat × Nat :=
  let z' := (z + 719468).toNat
  let era := z' / 146097
  let doe := z' % 146097
  let yoe := (doe - doe / 1460 + doe / 36524 - doe / 146096) / 365
  let y := yoe + era * 400
  let doy := doe - (365 * yoe + yoe / 4 - yoe / 100)
  let mp := (5 * doy + 2) / 153
  let d := doy - (153 * mp + 2) / 5 + 1
  let m := if mp < 10 then mp + 3 else mp - 9
  (if m ≤ 2 then y + 1 else y, m, d)

/-- Days since 1970-01-01 from a Gregorian civil date (Hinnant's algorithm). -/
def daysFromCivil (y m d : Nat) : Int :=
  let y' := if m ≤ 2 then y - 1 else y
  let era := y' / 400
  let yoe := y' % 400
  let mp := if 2 < m then m - 3 else m + 9
  let doy := (153 * mp + 2) / 5 + d - 1
  let doe := yoe * 365 + yoe / 4 - yoe / 100 + doy
  (era * 146097 + doe : Int) - 719468

def isLeapYear (y : Nat) : Bool :=
  y % 4 == 0 && (y % 100 != 0 || y % 400 == 0)

def daysInMonth (y m : Nat) : Nat :=
  if m = 2 then (if isLeapYear y then 29 else 28)
  else if m = 4 ∨ m = 6 ∨ m = 9 ∨ m = 11 then 30
  else 31

/-- Round the rational `xnum / xden` (with `xden > 0`) to the nearest
integer, ties to even (CPython's rounding in `datetime.fromtimestamp`).
Implemented over raw integers so the kernel can evaluate it. -/
def rheND (xnum xden : ℤ) : ℤ :=
  let f := Int.fdiv xnum xden
  let r := Int.fmod xnum xden
  if 2 * r < xden then f
  else if xden < 2 * r then f + 1
  else if f % 2 = 0 then f else f + 1

/-- Offset rendering of `datetime.isoformat()`: `+HH:MM` / `-HH:MM`. -/
def offsetRepr (o : Int) : String :=
  if 0 ≤ o then "+" ++ padNum 2 (o.toNat / 60) ++ ":" ++ padNum 2 (o.toNat % 60)
  else "-" ++ padNum 2 ((-o).toNat / 60) ++ ":" ++ padNum 2 ((-o).toNat % 60)

/-- Model of `datetime.fromtimestamp(t, tz=timezone.utc).isoformat()` for the
timestamp `xnum / xden` (with `xden > 0`): raises for timestamps whose UTC
datetime falls outside years 1..9999, else renders the canonical ISO-8601
string with a `+00:00` offset (microseconds appended only when non-zero, as
`isoformat` does).  CPython raises `ValueError: year ... is out of range`
for these out-of-range timestamps (`OverflowError` only far beyond them). -/
def fromtimestampIsoND (xnum xden : ℤ) : Except PyErr String :=
  let us : ℤ := rheND (xnum * 1000000) xden
  let secs : ℤ := Int.fdiv us 1000000
  let usec : ℤ := Int.fmod us 1000000
  if secs < -62135596800 ∨ 253402300800 ≤ secs then .error .valueError
  else
    let days : ℤ := Int.fdiv secs 86400
    let sod : ℕ := (Int.fmod secs 86400).toNat
    let c := civilFromDays days
    let frac := if usec = 0 then "" else "." ++ padNum 6 usec.toNat
    .ok (padNum 4 c.1 ++ "-" ++ padNum 2 c.2.1 ++ "-" ++ padNum 2 c.2.2 ++ "T" ++
      padNum 2 (sod / 3600) ++ ":" ++ padNum 2 (sod % 3600 / 60) ++ ":" ++
      padNum 2 (sod % 60) ++ frac ++ offsetRepr 0)

/-- Timezone-aware-or-naive datetime value as produced by the modelled
fragment of `datetime.fromisoformat`. -/
structure PyDateTime where
  year : Nat
  month : Nat
  day : Nat
  hour : Nat
  minute : Nat
  second : Nat
  offMin : Option Int
  deriving DecidableEq, Repr

def digitVal (c : Char) : Option Nat :=
  if '0' ≤ c ∧ c ≤ '9' then some (c.toNat - 48) else none

def parse2 : List Char → Option (Nat × List Char)
  | a :: b :: rest =>
      match digitVal a, digitVal b with
      | some x, some y => some (10 * x + y, rest)
      | _, _ => none
  | _ => none

def parse4 : List Char → Option (Nat × List Char)
  | a :: b :: c :: d :: rest =>
      match digitVal a, digitVal b, digitVal c, digitVal d with
      | some w, some x, some y, some z => some (1000 * w + 100 * x + 10 * y + z, rest)
      | _, _, _, _ => none
  | _ => none

def parseOffsetPart : List Char → Except PyErr (Option Int)
  | [] => .ok none
  | sign :: rest =>
      if sign = '+' ∨ sign = '-' then
        match parse2 rest with
        | some (h, ':' :: rest2) =>
            match parse2 rest2 with
            | some (m, []) =>
                if h ≤ 23 ∧ m ≤ 59 then
                  .ok (some (if sign = '+' then (h * 60 + m : Int) else -(h * 60 + m : Int)))
                else .error .valueError
            | _ => .error .valueError
        | _ => .error .valueError
      else .error .valueError

def parseTimePart (cs : List Char) : Except PyErr (Nat × Nat × Nat × Option Int) :=
  match parse2 cs with
  | some (h, ':' :: rest) =>
      (match parse2 rest with
      | some (mi, rest2) =>
          (match rest2 with
          | ':' :: rest3 =>
              (match parse2 rest3 with
              | some (s, rest4) =>
                  (match parseOffsetPart rest4 with
                  | .ok off => if h ≤ 23 ∧ mi ≤ 59 ∧ s ≤ 59 then .ok (h, mi, s, off)
                               else .error .valueError
                  | .error e => .error e)
              | none => .error .valueError)
          | _ =>
              (match parseOffsetPart rest2 with
              | .ok off => if h ≤ 23 ∧ mi ≤ 59 then .ok (h, mi, 0, off)
                           else .error .valueError
              | .error e => .error e))
      | none => .error .valueError)
  | _ => .error .valueError

/-- Model of Python 3.11 `datetime.fromisoformat` on the grammar
`YYYY-MM-DD[THH:MM[:SS][(+|-)HH:MM]]` (fractional seconds, compact forms and
non-`T` separators are outside the modelled fragment; no theorem below feeds
them). Anything else raises `ValueError`. -/
def pyFromIso (s : String) : Except PyErr PyDateTime :=
  match parse4 s.data with
  | some (y, '-' :: rest) =>
      (match parse2 rest with
      | some (m, '-' :: rest2) =>
          (match parse2 rest2 with
          | some (d, rest3) =>
              if 1 ≤ y ∧ 1 ≤ m ∧ m ≤ 12 ∧ 1 ≤ d ∧ d ≤ daysInMonth y m then
                match rest3 with
                | [] => .ok ⟨y, m, d, 0, 0, 0, none⟩
                | 'T' :: rest4 =>
                    (match parseTimePart rest4 with
                    | .ok (h, mi, sec, off) => .ok ⟨y, m, d, h, mi, sec, off⟩
                    | .error e => .error e)
                | _ => .error .valueError
              else .error .valueError
          | none => .error .valueError)
      | _ => .error .valueError)
  | _ => .error .valueError

/-- `date_parser._replace_z_suffix`. -/
def replaceZSuffix (value : String) : String :=
  if value.data.getLast? = some 'Z' then ⟨value.data.dropLast ++ "+00:00".data⟩
  else value

/-- `date_parser.parse_iso8601`: replace a trailing `Z`, parse, and attach a
UTC offset to naive results. -/
def parseIso8601 (value : String) : Except PyErr PyDateTime :=
  match pyFromIso (replaceZSuffix value) with
  | .error e => .error e
  | .ok dt =>
      .ok (if dt.offMin = none then { dt with offMin := some 0 } else dt)

/-- `datetime.isoformat()` of an aware datetime (microseconds zero). -/
def dtIso (dt : PyDateTime) : String :=
  padNum 4 dt.year ++ "-" ++ padNum 2 dt.month ++ "-" ++ padNum 2 dt.day ++ "T" ++
    padNum 2 dt.hour ++ ":" ++ padNum 2 dt.minute ++ ":" ++ padNum 2 dt.second ++
    (match dt.offMin with
     | some o => offsetRepr o
     | none => "")

/-- `date_parser.ensure_iso8601`. -/
def ensureIso8601 (value : String) : Except PyErr String :=
  (parseIso8601 value).map dtIso

/-- Seconds since epoch of an aware datetime. -/
def dtEpochSecs (dt : PyDateTime) : Int :=
  daysFromCivil dt.year dt.month dt.day * 86400 +
    (dt.hour * 3600 + dt.minute * 60 + dt.second : Nat) - dt.offMin.getD 0 * 60

def isoWeekCount (y : Nat) : Nat :=
  let p := fun (n : Nat) => (n + n / 4 - n / 100 + n / 400) % 7
  if p y = 4 ∨ p (y - 1) = 3 then 53 else 52

/-- ISO-8601 calendar week key `YYYY-Www` of a civil date
(Python `date.isocalendar()` then `f"{iso_year}-W{iso_week:02d}"`). -/
def isoWeekKey (y m d : Nat) : String :=
  let days := daysFromCivil y m d
  let wd : Int := days.emod 7 + 4 - (if days.emod 7 + 4 ≤ 7 then 0 else 7)
  let ord : Int := days - daysFromCivil y 1 1 + 1
  let w : Int := (ord + 10 - wd) / 7
  if w < 1 then toString (y - 1) ++ "-W" ++ padNum 2 (isoWeekCount (y - 1))
  else if (isoWeekCount y : Int) < w then toString (y + 1) ++ "-W01"
  else toString y ++ "-W" ++ padNum 2 w.toNat

/-- `date_parser.to_date_key`: parse, convert to UTC, and derive the day or
week aggregation key. -/
def toDateKey (value : String) (week : Bool) : Except PyErr String :=
  (parseIso8601 value).map fun dt =>
    let c := civilFromDays (Int.fdiv (dtEpochSecs dt) 86400)
    if week then isoWeekKey c.1 c.2.1 c.2.2
    else padNum 4 c.1 ++ "-" ++ padNum 2 c.2.1 ++ "-" ++ padNum 2 c.2.2

/-- `parser._normalize_ts`: `None` passes through, numbers (Python counts
`bool` as `int`) go through the epoch heuristic and `fromtimestamp`, strings
go through `ensure_iso8601` with parse failures returned unchanged, and any
other value is rendered with `str()`. -/
def normalizeTs (value : JVal) : Except PyErr (Option String) :=
  match value with
  | .null => .ok none
  | .bool b =>
      (fromtimestampIsoND (if b then 1 else 0) 1).map some
  | .num q =>
      -- `value > 1e10` over `q = q.num / q.den`, then exact division by 1000
      -- (the float rounding of Python's `value / 1000` is abstracted; it is
      -- exact for every value a theorem below evaluates)
      (if 10000000000 * (q.den : ℤ) < q.num then fromtimestampIsoND q.num ((q.den : ℤ) * 1000)
       else fromtimestampIsoND q.num (q.den : ℤ)).map some
  | .str s =>
      match ensureIso8601 s with
      | .ok r => .ok (some r)
      | .error _ => .ok (some s)
  | v => .ok (some v.pyStr)

/-- Normalized meeting record (`parser.MeetingDict`).  Fields that Python
leaves as arbitrary decoded values stay `JVal` (with `null` for `None`). -/
structure Meeting where
  id : String
  title : JVal
  startTs : String
  endTs : Option String
  participants : List JVal
  platform : Option String
  notes : JVal
  overview : JVal
  summary : JVal
  folderId : Option String
  folderName : JVal
  deriving DecidableEq, Repr

/-- Lookup in a Python dict with `JVal` keys (`folder_map`). -/
def dictFind (m : List (JVal × String × JVal)) (k : JVal) : Option (String × JVal) :=
  (m.find? (fun e => e.1 == k)).map (·.2)

/-- Python dict assignment `m[k] = v`: overwrite in place, else append. -/
def dictSet (m : List (JVal × String × JVal)) (k : JVal) (v : String × JVal) :
    List (JVal × String × JVal) :=
  if m.any (fun e => e.1 == k) then m.map (fun e => if e.1 == k then (k, v) else e)
  else m ++ [(k, v)]

/-- Inner loop of the folder-map construction
(`for meeting_id in ids: folder_map[meeting_id] = (folder_id, folder_name)`);
using an unhashable value as a dict key raises `TypeError`. -/
def addFolderIds (fid : String) (fname : JVal) :
    List JVal → List (JVal × String × JVal) → Except PyErr (List (JVal × String × JVal))
  | [], acc => .ok acc
  | i :: rest, acc =>
      if i.hashable then addFolderIds fid fname rest (dictSet acc i (fid, fname))
      else .error .typeError

def foldFolderEntries (listsMeta : JVal) :
    List (String × JVal) → List (JVal × String × JVal) →
      Except PyErr (List (JVal × String × JVal))
  | [], acc => .ok acc
  | (fid, ids) :: rest, acc =>
      match ids with
      | .arr idList =>
          let folderMeta := listsMeta.getD fid (.obj [])
          let folderName := if folderMeta.isDict then folderMeta.get "title" else .null
          (match addFolderIds fid folderName idList acc with
          | .ok acc' => foldFolderEntries listsMeta rest acc'
          | .error e => .error e)
      | _ => foldFolderEntries listsMeta rest acc

/-- `GranolaParser.get_meetings` lines 250-261: reverse folder mapping
`meeting_id -> (folder_id, folder_name)`, built only when both side mappings
are dicts. -/
def buildFolderMap (listsMap listsMeta : JVal) :
    Except PyErr (List (JVal × String × JVal)) :=
  match listsMap, listsMeta with
  | .obj entries, .obj _ => foldFolderEntries listsMeta entries []
  | _, _ => .ok []

/-- Shared shape of the two name-collection loops (people / attendees):
skip non-dict entries, read `name`, keep truthy names not yet seen (set
membership hashes the name first: unhashable truthy names raise). -/
def collectNames : List JVal → List JVal → List JVal → Except PyErr (List JVal)
  | [], _, acc => .ok acc
  | p :: rest, seen, acc =>
      match p with
      | .obj fields =>
          let name := (JVal.obj fields).get "name"
          if name.truthy then
            if name.hashable then
              if seen.contains name then collectNames rest seen acc
              else collectNames rest (name :: seen) (acc ++ [name])
            else .error .typeError
          else collectNames rest seen acc
      | _ => collectNames rest seen acc

/-- `GranolaParser.get_meetings` lines 279-303: embedded `people` list first;
metadata `attendees` only when that produced no participants. -/
def participantsOf (doc metadataMap : JVal) (meetingId : String) :
    Except PyErr (List JVal) :=
  let base :=
    match doc.getD "people" (.arr []) with
    | .arr ps => collectNames ps [] []
    | _ => .ok []
  match base with
  | .error e => .error e
  | .ok participants =>
      if participants.isEmpty ∧ metadataMap.isDict then
        let meta := metadataMap.getD meetingId (.obj [])
        if meta.isDict then
          match meta.getD "attendees" (.arr []) with
          | .arr as => collectNames as participants participants
          | _ => .ok participants
        else .ok participants
      else .ok participants

/-- `GranolaParser.get_meetings` lines 305-318: platform from the metadata
conference provider (`google_meet` → `meet`; `zoom`/`teams` kept; any other
truthy provider → `other`; the set-membership test hashes the provider). -/
def platformOf (metadataMap : JVal) (meetingId : String) :
    Except PyErr (Option String) :=
  if metadataMap.isDict then
    let meta := metadataMap.getD meetingId (.obj [])
    if meta.isDict then
      match meta.get "conference" with
      | .obj confFields =>
          let provider := (JVal.obj confFields).get "provider"
          if provider == .str "google_meet" then .ok (some "meet")
          else if provider.hashable then
            if provider == .str "zoom" then .ok (some "zoom")
            else if provider == .str "teams" then .ok (some "teams")
            else if provider.truthy then .ok (some "other")
            else .ok none
          else .error .typeError
      | _ => .ok none
    else .ok none
  else .ok none

/-- `GranolaParser.get_meetings` lines 325-335: first panel whose
`original_content` is a truthy string that strips to something other than
the `<hr>` placeholder. -/
def scanPanels : List (String × JVal) → Option String
  | [] => none
  | (_, panel) :: rest =>
      match panel with
      | .obj pf =>
          (match (JVal.obj pf).get "original_content" with
          | .str s =>
              if s ≠ "" then
                let stripped := pyStrip s
                if stripped ≠ "" ∧ stripped ≠ "<hr>" then some stripped
                else scanPanels rest
              else scanPanels rest
          | _ => scanPanels rest)
      | _ => scanPanels rest

/-- `GranolaParser.get_meetings` body for a single `documents` entry: `.ok
none` is Python's `continue` (non-dict document or non-meeting type tag). -/
def extractDoc (metadataMap panelsMap : JVal) (folderMap : List (JVal × String × JVal))
    (docKey : String) (doc : JVal) : Except PyErr (Option Meeting) :=
  match doc with
  | .obj _ =>
      let tv := doc.get "type"
      if tv.truthy ∧ tv ≠ .str "meeting" then .ok none
      else
        let meetingId := (pyOr (doc.get "id") (.str docKey)).pyStr
        match normalizeTs (doc.get "created_at") with
        | .error e => .error e
        | .ok startTs =>
        match participantsOf doc metadataMap meetingId with
        | .error e => .error e
        | .ok participants =>
        match platformOf metadataMap meetingId with
        | .error e => .error e
        | .ok platform =>
          let notes0 := pyOr (doc.get "notes_plain") (doc.get "notes_markdown")
          let notes :=
            if ¬notes0.truthy ∧ panelsMap.isDict then
              match panelsMap.getD meetingId (.obj []) with
              | .obj pfs =>
                  (match scanPanels pfs with
                  | some s => .str s
                  | none => notes0)
              | _ => notes0
            else notes0
          let folderInfo := dictFind folderMap (.str meetingId)
          .ok (some
            { id := meetingId
              title := pyOr (doc.get "title") (.str "Untitled Meeting")
              startTs := startTs.getD ""
              endTs := none
              participants := participants
              platform := platform
              notes := notes
              overview := doc.get "overview"
              summary := doc.get "summary"
              folderId := folderInfo.map (·.1)
              folderName := ((folderInfo.map (·.2)).getD .null) })
  | _ => .ok none

def extractDocs (metadataMap panelsMap : JVal)
    (folderMap : List (JVal × String × JVal)) :
    List (String × JVal) → Except PyErr (List Meeting)
  | [] => .ok []
  | (k, doc) :: rest =>
      match extractDoc metadataMap panelsMap folderMap k doc with
      | .error e => .error e
      | .ok none => extractDocs metadataMap panelsMap folderMap rest
      | .ok (some m) => (extractDocs metadataMap panelsMap folderMap rest).map (m :: ·)

/-- `GranolaParser.get_meetings` lines 239-358 (everything before the final
sort): the normalized records in documents order. -/
def extractAll (inner : JVal) : Except PyErr (List Meeting) :=
  let state := inner.getD "state" (.obj [])
  match state with
  | .obj _ =>
      let documents := state.getD "documents" (.obj [])
      let metadataMap := state.getD "meetingsMetadata" (.obj [])
      let panelsMap := state.getD "documentPanels" (.obj [])
      let listsMap := state.getD "documentLists" (.obj [])
      let listsMeta := state.getD "documentListsMetadata" (.obj [])
      (match buildFolderMap listsMap listsMeta with
      | .error e => .error e
      | .ok folderMap =>
          match documents with
          | .obj docFields => extractDocs metadataMap panelsMap folderMap docFields
          | _ => .ok [])
  | _ => .ok []

/-- Stable insertion keeping `y` before the inserted `x` whenever
`keep y x`; used for Python's stable `list.sort` / `sorted`. -/
def insStable {α : Type} (keep : α → α → Bool) (x : α) : List α → List α
  | [] => [x]
  | y :: ys => if keep y x then y :: insStable keep x ys else x :: y :: ys

/-- Stable sort: elements are inserted back-to-front, so an earlier element
passes later ones exactly when `keep later earlier` holds. -/
def sortStable {α : Type} (keep : α → α → Bool) (l : List α) : List α :=
  l.foldr (insStable keep) []

/-- Sort key of the final sort: `x.get("start_ts") or ""` (the field is
always a string, with `""` already substituted for missing timestamps). -/
def meetingKey (m : Meeting) : String := m.startTs

def meetingGt (a b : Meeting) : Bool := strGtB (meetingKey a) (meetingKey b)

/-- `GranolaParser.get_meetings` applied to a decoded inner graph: extract,
then `items.sort(key=..., reverse=True)` (stable, descending). -/
def getMeetingsOfInner (inner : JVal) : Except PyErr (List Meeting) :=
  (extractAll inner).map (sortStable meetingGt)

/-- `GranolaParser.get_meeting_by_id`: linear scan of the extracted list. -/
def getMeetingByIdOfInner (inner : JVal) (mid : String) :
    Except PyErr (Option Meeting) :=
  (getMeetingsOfInner inner).map (fun items => items.find? (fun m => m.id == mid))

def skipJsonWs (cs : List Char) : List Char :=
  cs.dropWhile (fun c => c == ' ' || c == '\t' || c == '\n' || c == '\r')

def jsonStrChars : List Char → Option (List Char × List Char)
  | [] => none
  | c :: rest =>
      if c = '"' then some ([], rest)
      else if c = '\\' then none
      else (jsonStrChars rest).map (fun p => (c :: p.1, p.2))

def jsonNatAcc : Nat → List Char → Nat × List Char
  | acc, [] => (acc, [])
  | acc, c :: rest =>
      match digitVal c with
      | some d => jsonNatAcc (acc * 10 + d) rest
      | none => (acc, c :: rest)

mutual

/-- Model of Python `json.loads` (value grammar) on the fragment used by the
theorems below: literals, unescaped strings, integer numbers, arrays and
objects.  String escapes, fractional/exponent numbers and duplicate object
keys are outside the modelled fragment. -/
def jsonVal (fuel : Nat) (cs : List Char) : Option (JVal × List Char) :=
  match fuel with
  | 0 => none
  | fuel + 1 =>
    match skipJsonWs cs with
    | 'n' :: 'u' :: 'l' :: 'l' :: rest => some (.null, rest)
    | 't' :: 'r' :: 'u' :: 'e' :: rest => some (.bool true, rest)
    | 'f' :: 'a' :: 'l' :: 's' :: 'e' :: rest => some (.bool false, rest)
    | '"' :: rest => (jsonStrChars rest).map (fun p => (.str ⟨p.1⟩, p.2))
    | '[' :: rest =>
        (match skipJsonWs rest with
        | ']' :: rest2 => some (.arr [], rest2)
        | rest2 => (jsonArrItems fuel rest2).map (fun p => (.arr p.1, p.2)))
    | '-' :: c :: rest =>
        (match digitVal c with
        | some d =>
            let p := jsonNatAcc d rest
            some (.num (-(p.1 : ℤ) : ℤ), p.2)
        | none => none)
    | c :: rest =>
        if c.toNat = 123 then
          match skipJsonWs rest with
          | c2 :: rest2 =>
              if c2.toNat = 125 then some (.obj [], rest2)
              else (jsonObjItems fuel (c2 :: rest2)).map (fun p => (.obj p.1, p.2))
          | [] => none
        else
          match digitVal c with
          | some d =>
              let p := jsonNatAcc d rest
              some (.num (p.1 : ℤ), p.2)
          | none => none
    | [] => none

def jsonArrItems (fuel : Nat) (cs : List Char) : Option (List JVal × List Char) :=
  match fuel with
  | 0 => none
  | fuel + 1 =>
    match jsonVal fuel cs with
    | none => none
    | some (v, rest) =>
        match skipJsonWs rest with
        | ',' :: rest2 => (jsonArrItems fuel rest2).map (fun p => (v :: p.1, p.2))
        | ']' :: rest2 => some ([v], rest2)
        | _ => none

def jsonObjItems (fuel : Nat) (cs : List Char) :
    Option (List (String × JVal) × List Char) :=
  match fuel with
  | 0 => none
  | fuel + 1 =>
    match skipJsonWs cs with
    | '"' :: rest =>
        (match jsonStrChars rest with
        | none => none
        | some (key, rest2) =>
            match skipJsonWs rest2 with
            | ':' :: rest3 =>
                (match jsonVal fuel rest3 with
                | none => none
                | some (v, rest4) =>
                    match skipJsonWs rest4 with
                    | ',' :: rest5 =>
                        (jsonObjItems fuel rest5).map
                          (fun p => ((⟨key⟩, v) :: p.1, p.2))
                    | c :: rest5 =>
                        if c.toNat = 125 then some ([(⟨key⟩, v)], rest5) else none
                    | [] => none)
            | _ => none)
    | _ => none

end

def jsonParse (s : String) : Option JVal :=
  match jsonVal (s.data.length + 4) s.data with
  | some (v, rest) => if (skipJsonWs rest).isEmpty then some v else none
  | none => none

/-- Outcome of reading the cache file from disk, as seen by `load_cache`:
the path is unreadable, the outer JSON fails to decode, or it decodes to a
value. -/
inductive Disk where
  | unreadable : Disk
  | badOuterJson : Disk
  | outer : JVal → Disk
  deriving DecidableEq, Repr

/-- `load_cache` lines 156-165: the decoded inner payload must be a dict
containing a `state` key. -/
def checkInner (inner : JVal) : Except PyErr JVal :=
  match inner with
  | .obj fields =>
      if (JVal.lookupKey fields "state").isSome then .ok inner
      else .error (.granola "Inner JSON missing 'state' field")
  | _ => .error (.granola "Inner cache is not a dict")

/-- `load_cache` lines 121-168 without the memoization: the full load
sequence.  A non-dict outer value makes `outer["cache"]` raise `TypeError`,
and the neither-string-nor-dict `GranolaParseError` is itself caught by the
enclosing `except Exception`, so both surface as "Failed to decode cache
field". -/
def loadCacheCore (disk : Disk) : Except PyErr JVal :=
  match disk with
  | .unreadable => .error (.granola "Cache file not readable")
  | .badOuterJson => .error (.granola "Failed to read outer JSON")
  | .outer ov =>
      match ov with
      | .obj fields =>
          (match JVal.lookupKey fields "cache" with
          | none => .error (.granola "Missing 'cache' field in outer JSON")
          | some (.str s) =>
              (match jsonParse s with
              | some inner => checkInner inner
              | none => .error (.granola "Failed to decode cache field"))
          | some (.obj innerFields) => checkInner (.obj innerFields)
          | some _ => .error (.granola "Failed to decode cache field"))
      | _ => .error (.granola "Failed to decode cache field")

/-- `GranolaParser.load_cache`: memoized snapshot in, result and new
snapshot out.  The snapshot is replaced only by a successful full load. -/
def loadCache (cache : Option JVal) (forceReload : Bool) (hasPath : Bool)
    (disk : Disk) : Except PyErr JVal × Option JVal :=
  match cache, forceReload with
  | some c, false => (.ok c, some c)
  | _, _ =>
      if hasPath then
        match loadCacheCore disk with
        | .ok inner => (.ok inner, some inner)
        | .error e => (.error e, cache)
      else (.error (.granola "Cache path not provided"), cache)

/-- `GranolaParser.reload`: `load_cache(force_reload=True)`. -/
def reloadCache (cache : Option JVal) (hasPath : Bool) (disk : Disk) :
    Except PyErr JVal × Option JVal :=
  loadCache cache true hasPath disk

/-- `GranolaParser.get_meetings` entry: `load_cache()` (memoized) then the
pure extraction pass; returns the result together with the parser's snapshot
state afterwards. -/
def getMeetingsSt (cache : Option JVal) (hasPath : Bool) (disk : Disk) :
    Except PyErr (List Meeting) × Option JVal :=
  match loadCache cache false hasPath disk with
  | (.ok inner, st) => (getMeetingsOfInner inner, st)
  | (.error e, st) => (.error e, st)

/-- `tools/meetings._paginate` with the cursor already through `int(...)`:
`start = int(cursor or 0)`, page `items[start:start+limit]`, next cursor
`start+limit` exactly when still in bounds. -/
def paginate {α : Type} (items : List α) (limit : Nat) (cursor : Option Nat) :
    List α × Option Nat :=
  let start := cursor.getD 0
  ((items.drop start).take limit,
   if start + limit < items.length then some (start + limit) else none)

/-- `_paginate` with the next cursor rendered as a decimal string
(`str(end)`), as the tool returns it. -/
def paginateStr {α : Type} (items : List α) (limit : Nat) (cursor : Option Nat) :
    List α × Option String :=
  let p := paginate items limit cursor
  (p.1, p.2.map toString)

def joinSep (sep : String) : List String → String
  | [] => ""
  | [x] => x
  | x :: xs => x ++ sep ++ joinSep sep xs

def asStrs : List JVal → Option (List String)
  | [] => some []
  | .str s :: rest => (asStrs rest).map (s :: ·)
  | _ => none

/-- Python `' '.join(participants)`: raises `TypeError` on a non-string
element. -/
def joinBySpace (l : List JVal) : Except PyErr String :=
  match asStrs l with
  | some ss => .ok (joinSep " " ss)
  | none => .error .typeError

/-- Haystack of the free-text filters in `list_meetings.matches` /
`search_meetings.matches`:
`f"{title} {notes} {' '.join(participants)}".lower()` — an f-string renders
values with `str()`, so `None` notes contribute the literal text `None`. -/
def hayOf (item : Meeting) : Except PyErr String :=
  (joinBySpace item.participants).map
    (fun ps => strLower (item.title.pyStr ++ " " ++ item.notes.pyStr ++ " " ++ ps))

/-- Participant filter: case-insensitive set intersection must be
non-empty. -/
def participantsOverlap (want : List String) (item : Meeting) : Bool :=
  let haveL := item.participants.map (fun p => strLower p.pyStr)
  want.any (fun w => haveL.contains (strLower w))

/-- Lower time bound of `list_meetings.matches` (`from_ts` /
`search` `after`): drop the record when `start_ts < ensure_iso8601(bound)`;
a bound that fails to normalize is ignored (`except: pass`). -/
def fromBoundOk (bound : Option String) (item : Meeting) : Bool :=
  match bound with
  | none => true
  | some b =>
      if b = "" then true
      else
        match ensureIso8601 b with
        | .ok nb => !strLtB item.startTs nb
        | .error _ => true

/-- Upper time bound (`to_ts` / `before`): drop when
`start_ts > ensure_iso8601(bound)`. -/
def toBoundOk (bound : Option String) (item : Meeting) : Bool :=
  match bound with
  | none => true
  | some b =>
      if b = "" then true
      else
        match ensureIso8601 b with
        | .ok nb => !strGtB item.startTs nb
        | .error _ => true

/-- `list_meetings.matches` (lines 88-111): free-text filter (only when
`params.q` is truthy), participants filter, then both time bounds. -/
def listMatches (q : Option String) (pf : Option (List String))
    (fromTs toTs : Option String) (item : Meeting) : Except PyErr Bool :=
  let qCheck : Except PyErr Bool :=
    match q with
    | some qs =>
        if qs ≠ "" then
          (hayOf item).map (fun hay => strContains hay (strLower qs))
        else .ok true
    | none => .ok true
  match qCheck with
  | .error e => .error e
  | .ok false => .ok false
  | .ok true =>
      let pOk :=
        match pf with
        | some ps => if ps.isEmpty then true else participantsOverlap ps item
        | none => true
      if !pOk then .ok false
      else if !fromBoundOk fromTs item then .ok false
      else .ok (toBoundOk toTs item)

/-- `search_meetings.matches` (lines 151-183): the haystack test runs
unconditionally on `(params.q or "").lower()`; the optional filters
(participants, platform, after, before) follow. -/
def searchMatches (q : String) (pf : Option (List String))
    (platformF : Option String) (afterTs beforeTs : Option String)
    (item : Meeting) : Except PyErr Bool :=
  match hayOf item with
  | .error e => .error e
  | .ok hay =>
      if !strContains hay (strLower q) then .ok false
      else
        let pOk :=
          match pf with
          | some ps => if ps.isEmpty then true else participantsOverlap ps item
          | none => true
        if !pOk then .ok false
        else
          let platOk :=
            match platformF with
            | some pl =>
                if pl = "" then true
                else strLower ((item.platform.map JVal.str).getD (.str "")).pyStr == strLower pl
            | none => true
          if !platOk then .ok false
          else if !fromBoundOk afterTs item then .ok false
          else .ok (toBoundOk beforeTs item)

/-- Increment for `counts[key] = counts.get(key, 0) + 1` over an assoc
list. -/
def bumpCount : List (String × Nat) → String → List (String × Nat)
  | [], k => [(k, 1)]
  | (k', n) :: rest, k =>
      if k' == k then (k', n + 1) :: rest else (k', n) :: bumpCount rest k

def statsLoop (week : Bool) :
    List Meeting → List (String × Nat) → Except PyErr (List (String × Nat))
  | [], acc => .ok acc
  | it :: rest, acc =>
      match toDateKey it.startTs week with
      | .error e => .error e
      | .ok k => statsLoop week rest (bumpCount acc k)

/-- `tools/meetings.meetings_stats` core (lines 221-230): group the records
by day or ISO week of their start timestamp and return the counts sorted by
period key (`sorted(counts.items())`). -/
def statsCounts (items : List Meeting) (groupBy : Option String) :
    Except PyErr (List (String × Nat)) :=
  let gb := match groupBy with
            | some g => if g ≠ "" then g else "day"
            | none => "day"
  let week := gb == "week"
  (statsLoop week items []).map (sortStable (fun a b => strLtB a.1 b.1))

/-- Raw transcript segment (`ts`, `source`, `text` in the cache shape used
by the repository's tests). -/
structure Segment where
  speaker : String
  ts : String
  text : String
  deriving DecidableEq, Repr

/-- Coalesced speaker turn. -/
structure Turn where
  speaker : String
  text : String
  startTs : String
  endTs : String
  deriving DecidableEq, Repr

def turnsGo (sp txt st en : String) : List Segment → List Turn
  | [] => [⟨sp, txt, st, en⟩]
  | s :: rest =>
      if s.speaker == sp then turnsGo sp (txt ++ " " ++ s.text) st s.ts rest
      else ⟨sp, txt, st, en⟩ :: turnsGo s.speaker s.text s.ts s.ts rest

/-- Modelled from the spec: `build_transcript_turns` is called by the
repository's tests (`tests/test_parser.py`) but no implementation exists
anywhere in the package sources, so this follows §4.4 of the spec: coalesce
consecutive segments sharing a speaker label into one turn whose text is the
segment texts joined by single spaces in order, whose start is the first
segment's timestamp and whose end is the last segment's; a new turn starts
at the first segment or on a speaker change; empty input yields empty
output. -/
def buildTranscriptTurns : List Segment → List Turn
  | [] => []
  | s :: rest => turnsGo s.speaker s.text s.ts s.ts rest

/-- Client-side page walk: start at a cursor, request a page, follow the
returned next cursor until it is absent (fuel bounds the number of hops). -/
def walkPages {α : Type} (items : List α) (limit : Nat) : Nat → Nat → List α
  | 0, _ => []
  | fuel + 1, c =>
      match paginate items limit (some c) with
      | (page, none) => page
      | (page, some c') => page ++ walkPages items limit fuel c'

/-- Free-text match as the spec words it: the query is a case-insensitive
substring of the concatenation of title, notes and participant names, where
a record without notes contributes no extra matchable text. -/
def specFreeTextMatch (item : Meeting) (q : String) : Bool :=
  strContains
    (strLower (item.title.pyStr ++ " " ++
      (match item.notes with | .str s => s | _ => "") ++ " " ++
      joinSep " " (item.participants.map JVal.pyStr)))
    (strLower q)

/-- Document graph whose single document carries a numeric creation
timestamp whose epoch value (after the milliseconds heuristic) lies outside
the range `datetime` can represent. -/
def gOverflow : JVal := .obj [("state", .obj [
  ("documents", .obj [("d1", .obj [("created_at", .num 1000000000000000)])])])]

/-- The same document with the creation timestamp absent. -/
def gOverflowFixed : JVal := .obj [("state", .obj [
  ("documents", .obj [("d1", .obj [])])])]

/-- Document graph whose single document has both a non-empty embedded
person list (`Alice`) and a metadata attendee list (`Bob`). -/
def gBoth : JVal := .obj [("state", .obj [
  ("documents", .obj [("d1", .obj [
    ("people", .arr [.obj [("name", .str "Alice")]])])]),
  ("meetingsMetadata", .obj [("d1", .obj [
    ("attendees", .arr [.obj [("name", .str "Bob")]])])])])]

/-- Document graph with attendees only (empty person list). -/
def gAttendeesOnly : JVal := .obj [("state", .obj [
  ("documents", .obj [("d1", .obj [("people", .arr [])])]),
  ("meetingsMetadata", .obj [("d1", .obj [
    ("attendees", .arr [.obj [("name", .str "Bob")]])])])])]

/-- Document graph with one document that has no `created_at`, so its
normalized record carries the documented empty-string start timestamp. -/
def gNoDate : JVal := .obj [("state", .obj [("documents", .obj [("d1", .obj [])])])]

/-- The record `gNoDate` extracts to. -/
def mNoDate : Meeting :=
  { id := "d1", title := .str "Untitled Meeting", startTs := "", endTs := none,
    participants := [], platform := none, notes := .null, overview := .null,
    summary := .null, folderId := none, folderName := .null }

/-- A normally dated record (start timestamp produced by the normalizer). -/
def mDated : Meeting :=
  { id := "d2", title := .str "Dated", startTs := "2025-09-01T10:20:00+00:00",
    endTs := none, participants := [], platform := none, notes := .null,
    overview := .null, summary := .null, folderId := none, folderName := .null }

/-- Three documents whose creation timestamps are later, missing, earlier —
the spec's sorting example. -/
def gSort : JVal := .obj [("state", .obj [("documents", .obj [
  ("a", .obj [("created_at", .str "2025-09-01T00:00:00+00:00")]),
  ("b", .obj []),
  ("c", .obj [("created_at", .str "2025-09-02T00:00:00+00:00")])])])]

/-- A record with a title, no notes (`None`) and no participants. -/
def mNoNotes : Meeting :=
  { id := "x", title := .str "Standup", startTs := "", endTs := none,
    participants := [], platform := none, notes := .null, overview := .null,
    summary := .null, folderId := none, folderName := .null }

/-- A disk whose outer JSON holds the double-encoded payload
`{"state": {"documents": {}}}`. -/
def diskGood : Disk :=
  .outer (.obj [("cache",
    .str "\x7b\"state\": \x7b\"documents\": \x7b\x7d\x7d\x7d")])

/-- The inner graph `diskGood` decodes to. -/
def innerGood : JVal := .obj [("state", .obj [("documents", .obj [])])]

/-- A previously memoized snapshot distinct from `innerGood`. -/
def innerOld : JVal := .obj [("state", .obj [("documents", .obj []),
  ("generation", .num 1)])]

/-- The records `gSort` extracts, in documents order (before sorting). -/
def mA : Meeting :=
  { id := "a", title := .str "Untitled Meeting",
    startTs := "2025-09-01T00:00:00+00:00", endTs := none, participants := [],
    platform := none, notes := .null, overview := .null, summary := .null,
    folderId := none, folderName := .null }

def mB : Meeting :=
  { id := "b", title := .str "Untitled Meeting", startTs := "", endTs := none,
    participants := [], platform := none, notes := .null, overview := .null,
    summary := .null, folderId := none, folderName := .null }

def mC : Meeting :=
  { id := "c", title := .str "Untitled Meeting",
    startTs := "2025-09-02T00:00:00+00:00", endTs := none, participants := [],
    platform := none, notes := .null, overview := .null, summary := .null,
    folderId := none, folderName := .null }

/-- The document and metadata mapping of `gBoth`, taken separately. -/
def docBoth : JVal := .obj [("people", .arr [.obj [("name", .str "Alice")]])]

def metaBoth : JVal := .obj [("d1", .obj [
  ("attendees", .arr [.obj [("name", .str "Bob")]])])]

theorem lexLt_irrefl : ∀ a, lexLt a a = false
  | [] => rfl
  | c :: cs => by simp [lexLt, lexLt_irrefl cs]

theorem lexLt_asymm : ∀ a b, lexLt a b = true → lexLt b a = false
  | [], [] => by simp [lexLt]
  | [], _ :: _ => fun _ => rfl
  | _ :: _, [] => by simp [lexLt]
  | a :: as, b :: bs => by
      by_cases h1 : a.toNat < b.toNat
      · have h2 : ¬b.toNat < a.toNat := by omega
        simp [lexLt, h1, h2]
      · by_cases h2 : b.toNat < a.toNat
        · simp [lexLt, h1, h2]
        · intro h
          have h' : lexLt as bs = true := by simpa [lexLt, h1, h2] using h
          simp [lexLt, h1, h2, lexLt_asymm as bs h']

theorem lexLt_conn : ∀ a b c, lexLt a c = true → lexLt a b = true ∨ lexLt b c = true
  | [], [], c => fun h => Or.inr h
  | [], _ :: _, _ => fun _ => Or.inl rfl
  | _ :: _, _, [] => by simp [lexLt]
  | a :: as, [], c :: cs => fun _ => Or.inr rfl
  | a :: as, b :: bs, c :: cs => by
      intro h
      by_cases hab : a.toNat < b.toNat
      · exact Or.inl (by simp [lexLt, hab])
      · by_cases hba : b.toNat < a.toNat
        · by_cases hca : c.toNat < a.toNat
          · have hac : ¬a.toNat < c.toNat := by omega
            simp [lexLt, hac, hca] at h
          · exact Or.inr (by simp [lexLt, show b.toNat < c.toNat by omega])
        · by_cases hac : a.toNat < c.toNat
          · exact Or.inr (by simp [lexLt, show b.toNat < c.toNat by omega])
          · by_cases hca : c.toNat < a.toNat
            · simp [lexLt, hac, hca] at h
            · have h' : lexLt as cs = true := by simpa [lexLt, hac, hca] using h
              rcases lexLt_conn as bs cs h' with h1 | h2
              · exact Or.inl (by simp [lexLt, hab, hba, h1])
              · exact Or.inr (by
                  simp [lexLt, show ¬b.toNat < c.toNat by omega,
                    show ¬c.toNat < b.toNat by omega, h2])

theorem strLtB_irrefl (a : String) : strLtB a a = false := lexLt_irrefl _

theorem strLtB_asymm {a b : String} (h : strLtB a b = true) : strLtB b a = false :=
  lexLt_asymm _ _ h

theorem strLtB_conn (a b c : String) (h : strLtB a c = true) :
    strLtB a b = true ∨ strLtB b c = true :=
  lexLt_conn _ _ _ h

theorem mem_insStable {α : Type} (keep : α → α → Bool) (x z : α) :
    ∀ l, z ∈ insStable keep x l ↔ z = x ∨ z ∈ l
  | [] => by simp [insStable]
  | y :: ys => by
      simp only [insStable]
      by_cases h : keep y x
      · rw [if_pos h]
        simp only [List.mem_cons, mem_insStable keep x z ys]
        tauto
      · rw [if_neg h]
        simp only [List.mem_cons]

theorem insStable_perm {α : Type} (keep : α → α → Bool) (x : α) :
    ∀ l, (insStable keep x l).Perm (x :: l)
  | [] => List.Perm.refl _
  | y :: ys => by
      simp only [insStable]
      by_cases h : keep y x
      · rw [if_pos h]
        exact ((insStable_perm keep x ys).cons y).trans (List.Perm.swap x y ys)
      · rw [if_neg h]

theorem sortStable_perm {α : Type} (keep : α → α → Bool) :
    ∀ l, (sortStable keep l).Perm l
  | [] => List.Perm.refl _
  | x :: xs => by
      show (insStable keep x (sortStable keep xs)).Perm _
      exact (insStable_perm keep x _).trans ((sortStable_perm keep xs).cons x)

theorem insStable_pairwise {α : Type} (key : α → String) (x : α) :
    ∀ l, l.Pairwise (fun a b => strLtB (key a) (key b) = false) →
      (insStable (fun y z => strGtB (key y) (key z)) x l).Pairwise
        (fun a b => strLtB (key a) (key b) = false)
  | [], _ => by simp [insStable]
  | y :: ys, hp => by
      obtain ⟨hy, hys⟩ := List.pairwise_cons.mp hp
      simp only [insStable]
      by_cases h : strGtB (key y) (key x)
      · rw [if_pos h]
        refine List.pairwise_cons.mpr ⟨?_, insStable_pairwise key x ys hys⟩
        intro z hz
        rcases (mem_insStable _ x z ys).mp hz with rfl | hzys
        · exact strLtB_asymm h
        · exact hy z hzys
      · rw [if_neg h]
        refine List.pairwise_cons.mpr ⟨?_, hp⟩
        intro z hz
        have hxy : strLtB (key x) (key y) = false := eq_false_of_ne_true h
        rcases List.mem_cons.mp hz with rfl | hzys
        · exact hxy
        · have hyz := hy z hzys
          by_contra hc
          rw [Bool.not_eq_false] at hc
          rcases strLtB_conn (key x) (key y) (key z) hc with h1 | h2
          · exact absurd h1 (by simp [hxy])
          · exact absurd h2 (by simp [hyz])

theorem sortStable_pairwise {α : Type} (key : α → String) :
    ∀ l, (sortStable (fun y z => strGtB (key y) (key z)) l).Pairwise
      (fun a b => strLtB (key a) (key b) = false)
  | [] => by simp [sortStable]
  | x :: xs => by
      show (insStable _ x (sortStable _ xs)).Pairwise _
      exact insStable_pairwise key x _ (sortStable_pairwise key xs)

theorem filter_insStable_pos {α : Type} (key : α → String) (x : α) (s : String)
    (hx : key x = s) :
    ∀ l, (insStable (fun y z => strGtB (key y) (key z)) x l).filter
        (fun a => key a == s) = x :: l.filter (fun a => key a == s)
  | [] => by simp [insStable, List.filter_cons, hx]
  | y :: ys => by
      simp only [insStable]
      by_cases h : strGtB (key y) (key x)
      · rw [if_pos h]
        have hky : (key y == s) = false := by
          rw [beq_eq_false_iff_ne]
          intro he
          have hlt : strLtB (key x) (key y) = true := h
          rw [he, hx] at hlt
          exact absurd hlt (by simp [strLtB_irrefl])
        simp only [List.filter_cons, hky]
        simp only [Bool.false_eq_true, if_false]
        exact filter_insStable_pos key x s hx ys
      · rw [if_neg h]
        simp [List.filter_cons, hx]

theorem filter_insStable_neg {α : Type} (key : α → String) (x : α) (s : String)
    (hx : key x ≠ s) :
    ∀ l, (insStable (fun y z => strGtB (key y) (key z)) x l).filter
        (fun a => key a == s) = l.filter (fun a => key a == s)
  | [] => by simp [insStable, List.filter_cons, hx]
  | y :: ys => by
      simp only [insStable]
      by_cases h : strGtB (key y) (key x)
      · rw [if_pos h]
        simp only [List.filter_cons]
        cases hky : (key y == s) <;>
          simp [hky, filter_insStable_neg key x s hx ys]
      · rw [if_neg h]
        simp [List.filter_cons, hx]

theorem sortStable_filter {α : Type} (key : α → String) (s : String) :
    ∀ l, (sortStable (fun y z => strGtB (key y) (key z)) l).filter
        (fun a => key a == s) = l.filter (fun a => key a == s)
  | [] => rfl
  | x :: xs => by
      show (insStable _ x (sortStable _ xs)).filter _ = _
      by_cases hx : key x = s
      · rw [filter_insStable_pos key x s hx (sortStable _ xs)]
        rw [sortStable_filter key s xs]
        simp [List.filter_cons, hx]
      · rw [filter_insStable_neg key x s hx (sortStable _ xs)]
        rw [sortStable_filter key s xs]
        simp [List.filter_cons, hx]

theorem turnsGo_speaker_head : ∀ (segs : List Segment) (sp txt st en : String),
    (turnsGo sp txt st en segs).head?.map Turn.speaker = some sp
  | [], _, _, _, _ => rfl
  | s :: rest, sp, txt, st, en => by
      simp only [turnsGo]
      by_cases h : s.speaker == sp
      · rw [if_pos h]
        exact turnsGo_speaker_head rest sp _ _ _
      · rw [if_neg h]
        rfl

theorem turnsGo_chain : ∀ (segs : List Segment) (sp txt st en : String),
    (turnsGo sp txt st en segs).Chain' (fun a b => a.speaker ≠ b.speaker)
  | [], _, _, _, _ => by simp [turnsGo]
  | s :: rest, sp, txt, st, en => by
      simp only [turnsGo]
      by_cases h : s.speaker == sp
      · rw [if_pos h]
        exact turnsGo_chain rest sp _ _ _
      · rw [if_neg h]
        rw [List.chain'_cons']
        refine ⟨?_, turnsGo_chain rest s.speaker _ _ _⟩
        intro b hb
        have hh := turnsGo_speaker_head rest s.speaker s.text s.ts s.ts
        have hb' : (turnsGo s.speaker s.text s.ts s.ts rest).head? = some b := hb
        rw [hb'] at hh
        have hh2 : b.speaker = s.speaker := by simpa using hh
        intro hcontra
        exact h (by rw [beq_iff_eq, ← hh2, ← hcontra])

theorem walkPages_eq_drop {α : Type} (items : List α) (limit : Nat)
    (hl : 0 < limit) :
    ∀ (fuel c : Nat), items.length ≤ c + fuel * limit →
      walkPages items limit fuel c = items.drop c
  | 0, c, hb => by
      simp only [walkPages]
      exact (List.drop_eq_nil_of_le (by simpa using hb)).symm
  | fuel + 1, c, hb => by
      simp only [walkPages, paginate, Option.getD_some]
      by_cases h : c + limit < items.length
      · rw [if_pos h]
        show (items.drop c).take limit ++ walkPages items limit fuel (c + limit) =
          items.drop c
        rw [walkPages_eq_drop items limit hl fuel (c + limit)
          (by have h1 : (fuel + 1) * limit = fuel * limit + limit := by ring
              omega)]
        rw [show items.drop (c + limit) = (items.drop c).drop limit from
          (List.drop_drop limit c items).symm]
        exact List.take_append_drop limit (items.drop c)
      · rw [if_neg h]
        show (items.drop c).take limit = items.drop c
        refine List.take_of_length_le ?_
        rw [List.length_drop]
        omega

/-- Claim C1 (code bug): the spec's invariant says `get_meetings` never
raises on malformed input, with every optional field degrading locally; but
a document whose numeric `created_at` lies outside the `datetime` range
makes the extraction pass raise (`ValueError: year out of range` from
`datetime.fromtimestamp`, uncaught in the numeric branch of
`_normalize_ts`), aborting the whole collection — while the same document
without that field extracts fine. -/
theorem extraction_raises_on_out_of_range_created_at :
    getMeetingsOfInner gOverflow = .error .valueError ∧
    getMeetingsOfInner gNoDate = .ok [mNoDate] ∧
    normalizeTs (.num 1000000000000000) = .error .valueError := by decide

/-- Claim C2 (confirmed, spec-modelled): the transcript turn builder on the
modelled `build_transcript_turns` yields no turns for empty input, never
produces two consecutive turns with the same speaker label (each turn ends
exactly at a speaker change), and coalesces the spec's example
`[(Alice,t0,Hello), (Alice,t1,World), (Bob,t2,Reply)]` into exactly
`(Alice, "Hello World", t0..t1)` and `(Bob, "Reply", t2..t2)`. -/
theorem buildTranscriptTurns_contract :
    buildTranscriptTurns [] = [] ∧
    (∀ segs : List Segment,
      (buildTranscriptTurns segs).Chain' (fun a b => a.speaker ≠ b.speaker)) ∧
    buildTranscriptTurns
        [⟨"Alice", "t0", "Hello"⟩, ⟨"Alice", "t1", "World"⟩, ⟨"Bob", "t2", "Reply"⟩] =
      [⟨"Alice", "Hello World", "t0", "t1"⟩, ⟨"Bob", "Reply", "t2", "t2"⟩] := by
  refine ⟨rfl, ?_, by decide⟩
  intro segs
  cases segs with
  | nil => simp [buildTranscriptTurns]
  | cons s rest => exact turnsGo_chain rest s.speaker s.text s.ts s.ts

/-- Claim C3 (counterexample): a document whose embedded person list yields
`Alice` and whose metadata carries attendee `Bob` extracts participants
`[Alice]` only — the attendee entry is not appended after the embedded
names, contradicting the claim. -/
theorem participants_both_sources_counterexample :
    (getMeetingsOfInner gBoth).map (List.map Meeting.participants) =
      .ok [[.str "Alice"]] := by decide

/-- Claim C3 (amended): when the embedded person list yields at least one
name, the attendee list is never consulted — the participants are exactly
the embedded names, whatever the metadata mapping holds; the attendee
fallback fires only when the embedded list yields zero names. -/
theorem participants_embedded_wins_attendees_ignored :
    (∀ (doc meta : JVal) (mid : String) (l ps : List JVal),
        doc.getD "people" (.arr []) = .arr l →
        collectNames l [] [] = .ok ps → ps ≠ [] →
        participantsOf doc meta mid = .ok ps) ∧
    (getMeetingsOfInner gAttendeesOnly).map (List.map Meeting.participants) =
      .ok [[.str "Bob"]] := by
  refine ⟨?_, by decide⟩
  intro doc meta mid l ps hl hps hne
  have hfalse : ps.isEmpty = false := by
    cases ps with
    | nil => exact absurd rfl hne
    | cons a t => rfl
  simp only [participantsOf, hl, hps]
  simp [hfalse]

/-- Claim C3 amendment applied at the counterexample's document: the
embedded `Alice` makes the extraction ignore the `Bob` attendee entry. -/
theorem participants_embedded_wins_attendees_ignored_witness :
    participantsOf docBoth metaBoth "d1" = .ok [.str "Alice"] :=
  participants_embedded_wins_attendees_ignored.1 docBoth metaBoth "d1"
    [.obj [("name", .str "Alice")]] [.str "Alice"] (by decide) (by decide)
    (by decide)

/-- Claim C4 (code bug): `meetings_stats` feeds every record's start
timestamp to `to_date_key`, which raises `ValueError` on the empty string —
yet the extractor documents `""` as the default for a missing
`created_at`, so a collection containing such a record makes the stats tool
raise an unstructured fault instead of returning counts or a structured
error; dated records group fine by day and ISO week. -/
theorem stats_raises_on_empty_start_ts :
    getMeetingsOfInner gNoDate = .ok [mNoDate] ∧
    mNoDate.startTs = "" ∧
    statsCounts [mNoDate] none = .error .valueError ∧
    statsCounts [mDated] none = .ok [("2025-09-01", 1)] ∧
    statsCounts [mDated] (some "week") = .ok [("2025-W36", 1)] := by decide

/-- Claim C5 (confirmed): a memoized snapshot is returned as-is by
non-forced loads without touching storage; a forced reload repeats the full
load sequence, replaces the snapshot only on success, and on failure leaves
the previous snapshot intact while surfacing the error; `reload` is exactly
`load_cache(force_reload=True)`. -/
theorem loadCache_memoization_atomic_replace :
    (∀ (c : JVal) (hasPath : Bool) (disk : Disk),
        loadCache (some c) false hasPath disk = (.ok c, some c)) ∧
    (∀ (cache : Option JVal) (disk : Disk) (v : JVal),
        loadCacheCore disk = .ok v →
        loadCache cache true true disk = (.ok v, some v)) ∧
    (∀ (cache : Option JVal) (disk : Disk) (e : PyErr),
        loadCacheCore disk = .error e →
        loadCache cache true true disk = (.error e, cache)) ∧
    (∀ (cache : Option JVal) (hasPath : Bool) (disk : Disk),
        reloadCache cache hasPath disk = loadCache cache true hasPath disk) := by
  refine ⟨fun c hasPath disk => rfl, ?_, ?_, fun cache hasPath disk => rfl⟩
  · intro cache disk v h
    cases cache <;> simp [loadCache, h]
  · intro cache disk e h
    cases cache <;> simp [loadCache, h]

/-- Claim C5 applied concretely: reloading over a good disk replaces an
older snapshot; reloading over an unreadable disk keeps the old snapshot
and surfaces the `IO_ERROR`-class failure. -/
theorem loadCache_memoization_atomic_replace_witness :
    loadCacheCore diskGood = .ok innerGood ∧
    loadCache (some innerOld) true true diskGood = (.ok innerGood, some innerGood) ∧
    loadCacheCore .unreadable = .error (.granola "Cache file not readable") ∧
    loadCache (some innerOld) true true .unreadable =
      (.error (.granola "Cache file not readable"), some innerOld) :=
  ⟨by decide,
   loadCache_memoization_atomic_replace.2.1 _ _ _ (by decide),
   by decide,
   loadCache_memoization_atomic_replace.2.2.1 _ _ _ (by decide)⟩

/-- Claim C6 (code bug): the normalizer passes `None` through, applies the
greater-than-`1e10` milliseconds heuristic (epoch seconds `1756722000` and
the equivalent milliseconds value both canonicalize to
`2025-09-01T10:20:00+00:00`), rewrites a trailing `Z` to `+00:00`, and
returns unparseable strings unchanged — but a number whose epoch value
falls outside the `datetime` range raises `ValueError` instead of
converting, so "given a number ... converts to a canonical ISO-8601 UTC
string" fails there. -/
theorem normalizeTs_eval :
    normalizeTs .null = .ok none ∧
    normalizeTs (.num 1756722000) = .ok (some "2025-09-01T10:20:00+00:00") ∧
    normalizeTs (.num 1756722000000) = .ok (some "2025-09-01T10:20:00+00:00") ∧
    normalizeTs (.str "2025-09-01T10:00:00Z") =
      .ok (some "2025-09-01T10:00:00+00:00") ∧
    normalizeTs (.str "not a timestamp") = .ok (some "not a timestamp") ∧
    normalizeTs (.num 10000000000000000) = .error .valueError := by decide

/-- Claim C7 (counterexample): a record titled `Standup` with no notes and
no participants is matched by the query `none` in both the list and search
filters, although `none` is not a substring of the concatenation of its
title, notes and participant names — the f-string renders the missing notes
as the literal text `None`. -/
theorem freetext_matches_none_counterexample :
    listMatches (some "none") none none none mNoNotes = .ok true ∧
    searchMatches "none" none none none none mNoNotes = .ok true ∧
    specFreeTextMatch mNoNotes "none" = false := by decide

/-- Claim C7 (amended): for records whose participants are all strings, the
free-text filter of list-meetings (for a non-empty query) and
search-meetings matches exactly when the query is a case-insensitive
substring of `title ++ " " ++ str(notes) ++ " " ++ " ".join(participants)`,
where missing notes render as the literal `None`. -/
theorem freetext_filter_characterization :
    ∀ (item : Meeting) (q : String) (ss : List String),
      asStrs item.participants = some ss →
      (q ≠ "" →
        listMatches (some q) none none none item =
          .ok (strContains
            (strLower (item.title.pyStr ++ " " ++ item.notes.pyStr ++ " " ++
              joinSep " " ss)) (strLower q))) ∧
      searchMatches q none none none none item =
        .ok (strContains
          (strLower (item.title.pyStr ++ " " ++ item.notes.pyStr ++ " " ++
            joinSep " " ss)) (strLower q)) := by
  intro item q ss hss
  have hhay : hayOf item =
      .ok (strLower (item.title.pyStr ++ " " ++ item.notes.pyStr ++ " " ++
        joinSep " " ss)) := by
    simp [hayOf, joinBySpace, hss, Except.map]
  constructor
  · intro hq
    simp only [listMatches, if_pos hq, hhay, Except.map]
    cases hc : strContains
        (strLower (item.title.pyStr ++ " " ++ item.notes.pyStr ++ " " ++
          joinSep " " ss)) (strLower q) <;>
      simp [fromBoundOk, toBoundOk]
  · simp only [searchMatches, hhay]
    cases hc : strContains
        (strLower (item.title.pyStr ++ " " ++ item.notes.pyStr ++ " " ++
          joinSep " " ss)) (strLower q) <;>
      simp [fromBoundOk, toBoundOk]

/-- Claim C7 amendment applied at the counterexample record and query. -/
theorem freetext_filter_characterization_witness :
    listMatches (some "standup") none none none mNoNotes =
      .ok (strContains
        (strLower (mNoNotes.title.pyStr ++ " " ++ mNoNotes.notes.pyStr ++ " " ++
          joinSep " " [])) (strLower "standup")) ∧
    searchMatches "standup" none none none none mNoNotes =
      .ok (strContains
        (strLower (mNoNotes.title.pyStr ++ " " ++ mNoNotes.notes.pyStr ++ " " ++
          joinSep " " [])) (strLower "standup")) := by
  have h := freetext_filter_characterization mNoNotes "standup" [] (by decide)
  exact ⟨h.1 (by decide), h.2⟩

set_option maxRecDepth 10000 in
/-- Claim C8 (confirmed): the page is the slice of length at most `limit`
starting at the decimal cursor offset (default 0), the next cursor is
`str(offset+limit)` exactly when that offset is still within bounds, the
spec's 120-record example paginates as stated, and following next cursors
from 0 walks the whole collection without overlap or omission. -/
theorem pagination_contract :
    (∀ (α : Type) (items : List α) (limit c : Nat),
        paginate items limit (some c) =
          ((items.drop c).take limit,
            if c + limit < items.length then some (c + limit) else none) ∧
        (paginate items limit (some c)).1.length ≤ limit ∧
        (paginateStr items limit (some c)).2 =
          (if c + limit < items.length then some (toString (c + limit)) else none) ∧
        paginate items limit none = paginate items limit (some 0)) ∧
    (∀ (α : Type) (items : List α) (limit : Nat), 0 < limit →
        walkPages items limit items.length 0 = items) ∧
    paginateStr (List.range 120) 50 none = ((List.range 120).take 50, some "50") ∧
    (paginateStr (List.range 120) 50 (some 100)).1 = (List.range 120).drop 100 ∧
    (paginateStr (List.range 120) 50 (some 100)).1.length = 20 ∧
    (paginateStr (List.range 120) 50 (some 100)).2 = none := by
  refine ⟨?_, ?_, by decide, by decide, by decide, by decide⟩
  · intro α items limit c
    refine ⟨rfl, List.length_take_le limit (items.drop c), ?_, rfl⟩
    by_cases h : c + limit < items.length <;> simp [paginateStr, paginate, h]
  · intro α items limit hl
    have hb : items.length ≤ 0 + items.length * limit := by
      have h1 : items.length * 1 ≤ items.length * limit :=
        Nat.mul_le_mul_left _ hl
      omega
    have := walkPages_eq_drop items limit hl items.length 0 hb
    simpa using this

/-- Claim C8 applied at the spec's example: fifty-record pages starting
from cursor 0 walk all 120 records to exhaustion. -/
theorem pagination_contract_witness :
    0 < 50 ∧ walkPages (List.range 120) 50 120 0 = List.range 120 :=
  ⟨by decide, pagination_contract.2.1 Nat (List.range 120) 50 (by decide)⟩

/-- Claim C9 (confirmed): the extracted collection is the stable descending
sort of the in-order extraction by start-timestamp string (missing
timestamps already replaced by `""`): adjacent records never strictly
increase, records with any fixed key keep their original relative order,
the result is a permutation of the extraction, and the spec's example
orders `2025-09-02`, `2025-09-01`, `""` with the undated record last. -/
theorem getMeetings_sorted_desc_stable :
    (∀ (g : JVal) (l₀ : List Meeting), extractAll g = .ok l₀ →
        getMeetingsOfInner g = .ok (sortStable meetingGt l₀) ∧
        (sortStable meetingGt l₀).Pairwise
          (fun a b => strLtB (meetingKey a) (meetingKey b) = false) ∧
        (∀ s, (sortStable meetingGt l₀).filter (fun m => meetingKey m == s) =
          l₀.filter (fun m => meetingKey m == s)) ∧
        (sortStable meetingGt l₀).Perm l₀) ∧
    (getMeetingsOfInner gSort).map (List.map Meeting.startTs) =
      .ok ["2025-09-02T00:00:00+00:00", "2025-09-01T00:00:00+00:00", ""] := by
  refine ⟨?_, by decide⟩
  intro g l₀ h
  refine ⟨?_, sortStable_pairwise meetingKey l₀,
    fun s => sortStable_filter meetingKey s l₀, sortStable_perm _ l₀⟩
  show (extractAll g).map (sortStable meetingGt) = _
  rw [h]
  rfl

/-- Claim C9 applied at the spec's example graph: the three records extract
in documents order and sort to later-first with the undated record last. -/
theorem getMeetings_sorted_desc_stable_witness :
    extractAll gSort = .ok [mA, mB, mC] ∧
    getMeetingsOfInner gSort = .ok (sortStable meetingGt [mA, mB, mC]) ∧
    (sortStable meetingGt [mA, mB, mC]).Pairwise
      (fun a b => strLtB (meetingKey a) (meetingKey b) = false) := by
  have h := getMeetings_sorted_desc_stable.1 gSort [mA, mB, mC] (by decide)
  exact ⟨by decide, h.1, h.2.1⟩

/-- Claim C10 (confirmed): with a loaded snapshot, `get_meetings` is a pure
function of that graph and leaves the parser state untouched; and in every
state, running `get_meetings` twice yields identical output and state — the
extraction pass is repeatable with no observable side effects. -/
theorem getMeetings_pure_idempotent :
    (∀ (g : JVal) (hasPath : Bool) (disk : Disk),
        getMeetingsSt (some g) hasPath disk = (getMeetingsOfInner g, some g)) ∧
    (∀ (cache : Option JVal) (hasPath : Bool) (disk : Disk),
        getMeetingsSt (getMeetingsSt cache hasPath disk).2 hasPath disk =
          getMeetingsSt cache hasPath disk) := by
  refine ⟨fun g hasPath disk => rfl, ?_⟩
  intro cache hasPath disk
  cases cache with
  | some c => rfl
  | none =>
      cases hasPath with
      | false => rfl
      | true =>
          cases h : loadCacheCore disk with
          | ok v => simp [getMeetingsSt, loadCache, h]
          | error e => simp [getMeetingsSt, loadCache, h]

end Granola
